import Mathlib

/-!
Verification of src/run.py (DialogRE-baselines).

Real-valued quantities of the script (sigmoid probabilities, thresholds,
precision/recall/F1) are modelled as rationals; Python ints holding class
indices are modelled as integers (the running argmax is initialised to -1).
Code that can raise is modelled with Except Unit.
-/

/-- Lines 90-104, the per-row loop body of getpred: walks one row of scores
with the index counter j, accumulating the list r of class indices whose
score is strictly above T1, together with the running maximum maxl and the
index maxj at which it was first attained (both initialised to -1). -/
def predLoop (T1 : ℚ) : List ℚ → ℕ → List ℤ → ℚ → ℤ → List ℤ × ℚ × ℤ
  | [], _, r, maxl, maxj => (r, maxl, maxj)
  | v :: rest, j, r, maxl, maxj =>
    let r2 := if T1 < v then r ++ [(j : ℤ)] else r
    if maxl < v then predLoop T1 rest (j + 1) r2 v (j : ℤ)
    else predLoop T1 rest (j + 1) r2 maxl maxj

/-- Lines 89-104: prediction for one example: the classes above T1 when any,
otherwise [36] when the best score is at most T2, otherwise the argmax. -/
def predRow (row : List ℚ) (T1 T2 : ℚ) : List ℤ :=
  let res := predLoop T1 row 0 [] (-1) (-1)
  if res.1 = [] then (if res.2.1 ≤ T2 then [36] else [res.2.2]) else res.1

/-- Lines 88-105: getpred maps the per-example rule over all rows. The
Python defaults are T1 = 0.5 and T2 = 0.4. -/
def getpred (result : List (List ℚ)) (T1 T2 : ℚ) : List (List ℤ) :=
  result.map (fun row => predRow row T1 T2)

/-- Lines 112-114: number of gold ids other than 36 in one example. -/
def goldCount (gold : List ℤ) : ℕ :=
  (gold.filter (fun i => decide (i ≠ 36))).length

/-- Lines 112-116: number of gold ids other than 36 that appear in the
prediction for the same example. -/
def goldHits (pred gold : List ℤ) : ℕ :=
  (gold.filter (fun i => decide (i ≠ 36) && decide (i ∈ pred))).length

/-- Lines 118-120: number of predicted ids other than 36 in one example. -/
def sysCount (pred : List ℤ) : ℕ :=
  (pred.filter (fun i => decide (i ≠ 36))).length

/-- Lines 108-120, totals of geteval. The Python loop runs i over
range(len(data)) and reads devp[i]; with the equal-length lists geteval is
applied to inside f1_eval this is the elementwise zip below. -/
def correct_gt (devp data : List (List ℤ)) : ℕ :=
  ((data.zip devp).map (fun p => goldCount p.1)).sum

def correct_sys (devp data : List (List ℤ)) : ℕ :=
  ((data.zip devp).map (fun p => goldHits p.2 p.1)).sum

def all_sys (devp data : List (List ℤ)) : ℕ :=
  ((data.zip devp).map (fun p => sysCount p.2)).sum

/-- Line 122: precision = 1 if all_sys == 0 else correct_sys / all_sys. -/
def precisionOf (devp data : List (List ℤ)) : ℚ :=
  if all_sys devp data = 0 then 1
  else (correct_sys devp data : ℚ) / (all_sys devp data : ℚ)

/-- Line 123: recall = 0 if correct_gt == 0 else correct_sys / correct_gt. -/
def recallOf (devp data : List (List ℤ)) : ℚ :=
  if correct_gt devp data = 0 then 0
  else (correct_sys devp data : ℚ) / (correct_gt devp data : ℚ)

/-- Line 124: harmonic combination of precision and recall. -/
def f1Combine (p r : ℚ) : ℚ :=
  if p + r ≠ 0 then 2 * p * r / (p + r) else 0

/-- Lines 107-125: micro-F1 of predictions devp against gold label lists. -/
def geteval (devp data : List (List ℤ)) : ℚ :=
  f1Combine (precisionOf devp data) (recallOf devp data)

/-- Lines 133-141: gold label list of one example: the indices i < 36 with
label_id[i] == 1, falling back to [36] when there are none. Under the
assert of line 136 the vector has exactly 36 entries, so the getD default
is never taken. -/
def label_of (label_id : List ℕ) : List ℤ :=
  let label := ((List.range 36).filter (fun i => decide (label_id.getD i 0 = 1))).map
    (fun i => Int.ofNat i)
  if label = [] then [36] else label

/-- Lines 130-142 including the assert at line 136: builds the gold label
lists, failing (AssertionError) at the first label vector that does not
have exactly 36 entries. -/
def mkLabels : List (List ℕ) → Except Unit (List (List ℤ))
  | [] => .ok []
  | lbl :: rest =>
    if lbl.length = 36 then
      match mkLabels rest with
      | .error e => .error e
      | .ok ls => .ok (label_of lbl :: ls)
    else .error ()

/-- Lines 146-148: micro-F1 obtained at search index t, i.e. with
T1 = 0.5 (the getpred default) and T2 = t/100. -/
def f1At (probs : List (List ℚ)) (labels : List (List ℤ)) (t : ℕ) : ℚ :=
  geteval (getpred probs (1 / 2) ((t : ℚ) / 100)) labels

/-- Lines 149-151: one step of the best-threshold accumulator. -/
def f1step (probs : List (List ℚ)) (labels : List (List ℤ))
    (best : ℚ × ℚ) (t : ℕ) : ℚ × ℚ :=
  if best.1 < f1At probs labels t then (f1At probs labels t, (t : ℚ) / 100) else best

/-- Lines 145-152: threshold search over T2 ∈ {0, 0.01, ..., 0.50},
starting from bestT2 = bestf_1 = 0. -/
def f1search (probs : List (List ℚ)) (labels : List (List ℤ)) : ℚ × ℚ :=
  (List.range 51).foldl (f1step probs labels) (0, 0)

/-- Lines 87-153: f1_eval. Lines 127-128 apply the elementwise sigmoid
x ↦ 1/(1+exp(-x)) to the raw logits; the embedding takes the resulting
probability matrix directly, quantifying over all rational matrices, a
superset of the sigmoid image. The assert at line 143 compares the number
of label lists with the number of logit rows. -/
def f1_eval (probs : List (List ℚ)) (label_id_lst : List (List ℕ)) :
    Except Unit (ℚ × ℚ) :=
  match mkLabels label_id_lst with
  | .error e => .error e
  | .ok labels =>
    if labels.length = probs.length then .ok (f1search probs labels) else .error ()

/-- Spec-side reading of C2: the class indices of one row whose score is
strictly above T1, indices counted from j. -/
def classesAboveFrom (T1 : ℚ) : List ℚ → ℕ → List ℤ
  | [], _ => []
  | v :: rest, j =>
    if T1 < v then (j : ℤ) :: classesAboveFrom T1 rest (j + 1)
    else classesAboveFrom T1 rest (j + 1)

/-- Device-side parameter as the bridge functions see it: a value and a
gradient (the gradient exists, since the bridge runs after backward()). -/
structure ModelParam (α : Type) where
  data : α
  grad : α
  deriving DecidableEq

/-- CPU/shadow parameter: its gradient starts out absent (None). -/
structure OptiParam (α : Type) where
  data : α
  grad : Option α
  deriving DecidableEq

/-- Lines 66-84: copies each device gradient onto the optimizer shadow
copy, raising ValueError at the first parameter-name mismatch, and reports
whether any device gradient contains a NaN; isNan stands for
torch.isnan(·).sum() > 0 on the abstract scalar type. Returns the updated
shadow sequence together with the is_nan flag; zip stops at the shorter
sequence, shadow entries beyond it are untouched. -/
def set_optimizer_params_grad {α : Type} (isNan : α → Bool) (test_nan : Bool) :
    List (String × OptiParam α) → List (String × ModelParam α) →
    Except Unit (List (String × OptiParam α) × Bool)
  | os, [] => .ok (os, false)
  | [], _ :: _ => .ok ([], false)
  | (no, po) :: os, (nm, pm) :: ms =>
    if no ≠ nm then .error ()
    else
      match set_optimizer_params_grad isNan test_nan os ms with
      | .error e => .error e
      | .ok (os2, nan2) =>
        .ok ((no, { po with grad := some pm.grad }) :: os2,
          nan2 || (test_nan && isNan pm.grad))

/-- Lines 53-63: copies the shadow values back into the model parameters,
raising ValueError at the first name mismatch. -/
def copy_optimizer_params_to_model {α : Type} :
    List (String × ModelParam α) → List (String × OptiParam α) →
    Except Unit (List (String × ModelParam α))
  | ms, [] => .ok ms
  | [], _ :: _ => .ok []
  | (nm, pm) :: ms, (no, po) :: os =>
    if no ≠ nm then .error ()
    else
      match copy_optimizer_params_to_model ms os with
      | .error e => .error e
      | .ok ms2 => .ok ((nm, { pm with data := po.data }) :: ms2)

/-- Lines 375-400 observed state: the relevant argparse flags. -/
structure Args where
  gradient_accumulation_steps : ℤ
  do_train : Bool
  do_eval : Bool
  resume : Bool
  deriving DecidableEq

/-- Lines 375-400: the three startup ValueError checks in source order;
outDirExists and modelPtPresent abstract the os.path.exists and os.listdir
observations of line 394. -/
def validate_args (args : Args) (outDirExists modelPtPresent : Bool) :
    Except Unit Unit :=
  if args.gradient_accumulation_steps < 1 then .error ()
  else if !args.do_train && !args.do_eval then .error ()
  else if outDirExists && modelPtPresent && (args.do_train && !args.resume) then .error ()
  else .ok ()

theorem getD_eq_default_or_mem {α : Type} (l : List α) (d : α) (i : ℕ) :
    l.getD i d = d ∨ l.getD i d ∈ l := by
  induction l generalizing i with
  | nil => left; rfl
  | cons a l ih =>
    cases i with
    | zero => right; simp [List.getD]
    | succ j =>
      rcases ih j with h | h
      · left; simpa [List.getD] using h
      · right; simp only [List.getD] at h ⊢
        exact List.mem_cons_of_mem _ h

/-- Claim C3: an all-zero label vector of 36 entries produces exactly the
gold label list [36] inside f1_eval. -/
theorem label_of_all_zero (lbl : List ℕ) (_h36 : lbl.length = 36)
    (h0 : ∀ x ∈ lbl, x = 0) : label_of lbl = [36] := by
  have hfilter :
      ((List.range 36).filter (fun i => decide (lbl.getD i 0 = 1))) = [] := by
    rw [List.filter_eq_nil_iff]
    intro i _
    have h1 : lbl.getD i 0 = 0 := by
      rcases getD_eq_default_or_mem lbl 0 i with h | h
      · exact h
      · exact h0 _ h
    simp only [decide_eq_true_eq]
    rw [h1]
    omega
  simp only [label_of]
  rw [hfilter]
  rfl

theorem label_of_all_zero_witness :
    (List.replicate 36 0).length = 36 ∧ label_of (List.replicate 36 0) = [36] :=
  ⟨by decide, label_of_all_zero (List.replicate 36 0) (by decide) (by decide)⟩

/-- Claim C9: the startup validation raises ValueError exactly when the
gradient-accumulation count is below 1, both do_train and do_eval are off,
or the output directory pre-exists with model.pt while do_train is set and
resume is not. -/
theorem validate_args_error_iff (args : Args) (outDirExists modelPtPresent : Bool) :
    validate_args args outDirExists modelPtPresent = .error () ↔
      (args.gradient_accumulation_steps < 1 ∨
        (args.do_train = false ∧ args.do_eval = false) ∨
        (outDirExists = true ∧ modelPtPresent = true ∧
          args.do_train = true ∧ args.resume = false)) := by
  unfold validate_args
  split_ifs with h1 h2 h3 <;>
    simp_all [Bool.and_eq_true, Bool.not_eq_true']

theorem predRow_ne_nil (row : List ℚ) (T1 T2 : ℚ) : predRow row T1 T2 ≠ [] := by
  unfold predRow
  simp only []
  split_ifs <;> simp_all

theorem geteval_zero_of_all36 (devp data : List (List ℤ))
    (h36 : ∀ r ∈ data, ∀ i ∈ r, i = 36) : geteval devp data = 0 := by
  have hgt : correct_gt devp data = 0 := by
    unfold correct_gt
    rw [List.sum_eq_zero]
    intro x hx
    rcases List.mem_map.mp hx with ⟨p, hp, hEq⟩
    have hmem : p.1 ∈ data := (List.of_mem_zip hp).1
    subst hEq
    unfold goldCount
    rw [List.length_eq_zero, List.filter_eq_nil_iff]
    intro i hi
    simp [h36 _ hmem i hi]
  have hsys : correct_sys devp data = 0 := by
    unfold correct_sys
    rw [List.sum_eq_zero]
    intro x hx
    rcases List.mem_map.mp hx with ⟨p, hp, hEq⟩
    have hmem : p.1 ∈ data := (List.of_mem_zip hp).1
    subst hEq
    unfold goldHits
    rw [List.length_eq_zero, List.filter_eq_nil_iff]
    intro i hi
    simp [h36 _ hmem i hi]
  have hrec : recallOf devp data = 0 := by
    unfold recallOf
    rw [if_pos hgt]
  unfold geteval f1Combine
  rw [hrec]
  split_ifs with h
  · rw [mul_zero, zero_div]
  · rfl

/-- Claim C10: getpred never returns an empty prediction list for an
example, while a dataset whose gold lists contain only the no-relation
class 36 gets micro-F1 0 from geteval no matter the predictions. -/
theorem getpred_nonempty_and_all36_zero :
    (∀ (result : List (List ℚ)) (T1 T2 : ℚ), ∀ row ∈ getpred result T1 T2, row ≠ []) ∧
    (∀ (devp data : List (List ℤ)), (∀ r ∈ data, ∀ i ∈ r, i = 36) →
      geteval devp data = 0) := by
  constructor
  · intro result T1 T2 row hrow
    rcases List.mem_map.mp hrow with ⟨row0, _, hEq⟩
    exact hEq ▸ predRow_ne_nil row0 T1 T2
  · intro devp data h36
    exact geteval_zero_of_all36 devp data h36

theorem getpred_nonempty_and_all36_zero_witness :
    (∀ row ∈ getpred [[(1 : ℚ) / 10]] (1 / 2) (2 / 5), row ≠ []) ∧
    geteval [[(0 : ℤ)]] [[36]] = 0 :=
  ⟨getpred_nonempty_and_all36_zero.1 [[(1 : ℚ) / 10]] (1 / 2) (2 / 5),
    getpred_nonempty_and_all36_zero.2 [[(0 : ℤ)]] [[36]] (by decide)⟩

theorem sogn_cons_same_error {α : Type} (isNan : α → Bool) (test_nan : Bool)
    (no : String) (po : OptiParam α) (pm : ModelParam α)
    (os : List (String × OptiParam α)) (ms : List (String × ModelParam α)) :
    set_optimizer_params_grad isNan test_nan ((no, po) :: os) ((no, pm) :: ms)
        = .error () ↔
      set_optimizer_params_grad isNan test_nan os ms = .error () := by
  simp only [set_optimizer_params_grad]
  rw [if_neg (fun h => h rfl)]
  cases hrec : set_optimizer_params_grad isNan test_nan os ms with
  | error e => cases e; simp
  | ok p => obtain ⟨os2, nan2⟩ := p; simp

theorem set_optimizer_params_grad_error_iff {α : Type} (isNan : α → Bool)
    (test_nan : Bool) :
    ∀ (os : List (String × OptiParam α)) (ms : List (String × ModelParam α)),
      set_optimizer_params_grad isNan test_nan os ms = .error () ↔
        ∃ p ∈ (os.map Prod.fst).zip (ms.map Prod.fst), p.1 ≠ p.2 := by
  intro os
  induction os with
  | nil =>
    intro ms
    cases ms <;> simp [set_optimizer_params_grad]
  | cons o os ih =>
    intro ms
    cases ms with
    | nil => simp [set_optimizer_params_grad]
    | cons m ms =>
      obtain ⟨no, po⟩ := o
      obtain ⟨nm, pm⟩ := m
      by_cases hname : no = nm
      · subst hname
        rw [sogn_cons_same_error, ih ms]
        simp only [List.map_cons, List.zip_cons_cons, List.mem_cons]
        constructor
        · rintro ⟨p, hp, hne⟩
          exact ⟨p, Or.inr hp, hne⟩
        · rintro ⟨q, hq | hq, hne⟩
          · exact absurd rfl (hq ▸ hne)
          · exact ⟨q, hq, hne⟩
      · simp [set_optimizer_params_grad, hname]

theorem copy_cons_same_error {α : Type} (nm : String) (pm : ModelParam α)
    (po : OptiParam α)
    (ms : List (String × ModelParam α)) (os : List (String × OptiParam α)) :
    copy_optimizer_params_to_model ((nm, pm) :: ms) ((nm, po) :: os)
        = .error () ↔
      copy_optimizer_params_to_model ms os = .error () := by
  simp only [copy_optimizer_params_to_model]
  rw [if_neg (fun h => h rfl)]
  cases hrec : copy_optimizer_params_to_model ms os with
  | error e => cases e; simp
  | ok p => simp

theorem copy_optimizer_params_to_model_error_iff {α : Type} :
    ∀ (ms : List (String × ModelParam α)) (os : List (String × OptiParam α)),
      copy_optimizer_params_to_model ms os = .error () ↔
        ∃ p ∈ (os.map Prod.fst).zip (ms.map Prod.fst), p.1 ≠ p.2 := by
  intro ms
  induction ms with
  | nil =>
    intro os
    cases os <;> simp [copy_optimizer_params_to_model]
  | cons m ms ih =>
    intro os
    cases os with
    | nil => simp [copy_optimizer_params_to_model]
    | cons o os =>
      obtain ⟨nm, pm⟩ := m
      obtain ⟨no, po⟩ := o
      by_cases hname : no = nm
      · subst hname
        rw [copy_cons_same_error, ih os]
        simp only [List.map_cons, List.zip_cons_cons, List.mem_cons]
        constructor
        · rintro ⟨p, hp, hne⟩
          exact ⟨p, Or.inr hp, hne⟩
        · rintro ⟨q, hq | hq, hne⟩
          · exact absurd rfl (hq ▸ hne)
          · exact ⟨q, hq, hne⟩
      · simp [copy_optimizer_params_to_model, hname]

/-- Claim C5: both optimizer-bridge functions raise ValueError exactly when
some position compared by zip holds two different parameter names, and both
complete without raising when every compared pair of names matches. -/
theorem optimizer_bridge_error_iff {α : Type} (isNan : α → Bool) (test_nan : Bool)
    (os : List (String × OptiParam α)) (ms : List (String × ModelParam α)) :
    (set_optimizer_params_grad isNan test_nan os ms = .error () ↔
      ∃ p ∈ (os.map Prod.fst).zip (ms.map Prod.fst), p.1 ≠ p.2) ∧
    (copy_optimizer_params_to_model ms os = .error () ↔
      ∃ p ∈ (os.map Prod.fst).zip (ms.map Prod.fst), p.1 ≠ p.2) ∧
    ((∀ p ∈ (os.map Prod.fst).zip (ms.map Prod.fst), p.1 = p.2) →
      (∃ r, set_optimizer_params_grad isNan test_nan os ms = .ok r) ∧
      (∃ r, copy_optimizer_params_to_model ms os = .ok r)) := by
  refine ⟨set_optimizer_params_grad_error_iff isNan test_nan os ms,
    copy_optimizer_params_to_model_error_iff ms os, ?_⟩
  intro hall
  constructor
  · cases hres : set_optimizer_params_grad isNan test_nan os ms with
    | error e =>
      cases e
      rcases (set_optimizer_params_grad_error_iff isNan test_nan os ms).mp hres
        with ⟨p, hp, hne⟩
      exact absurd (hall p hp) hne
    | ok r => exact ⟨r, rfl⟩
  · cases hres : copy_optimizer_params_to_model ms os with
    | error e =>
      cases e
      rcases (copy_optimizer_params_to_model_error_iff ms os).mp hres
        with ⟨p, hp, hne⟩
      exact absurd (hall p hp) hne
    | ok r => exact ⟨r, rfl⟩

theorem optimizer_bridge_error_iff_witness :
    (set_optimizer_params_grad (fun _ : ℚ => false) true
        [("a", (⟨1, none⟩ : OptiParam ℚ))] [("a", (⟨2, 3⟩ : ModelParam ℚ))]
          = .error () ↔
      ∃ p ∈ ([("a", (⟨1, none⟩ : OptiParam ℚ))].map Prod.fst).zip
          ([("a", (⟨2, 3⟩ : ModelParam ℚ))].map Prod.fst), p.1 ≠ p.2) ∧
    (copy_optimizer_params_to_model [("a", (⟨2, 3⟩ : ModelParam ℚ))]
        [("a", (⟨1, none⟩ : OptiParam ℚ))] = .error () ↔
      ∃ p ∈ ([("a", (⟨1, none⟩ : OptiParam ℚ))].map Prod.fst).zip
          ([("a", (⟨2, 3⟩ : ModelParam ℚ))].map Prod.fst), p.1 ≠ p.2) ∧
    ((∀ p ∈ ([("a", (⟨1, none⟩ : OptiParam ℚ))].map Prod.fst).zip
          ([("a", (⟨2, 3⟩ : ModelParam ℚ))].map Prod.fst), p.1 = p.2) →
      (∃ r, set_optimizer_params_grad (fun _ : ℚ => false) true
          [("a", (⟨1, none⟩ : OptiParam ℚ))] [("a", (⟨2, 3⟩ : ModelParam ℚ))]
            = .ok r) ∧
      (∃ r, copy_optimizer_params_to_model [("a", (⟨2, 3⟩ : ModelParam ℚ))]
          [("a", (⟨1, none⟩ : OptiParam ℚ))] = .ok r)) :=
  optimizer_bridge_error_iff (fun _ : ℚ => false) true
    [("a", (⟨1, none⟩ : OptiParam ℚ))] [("a", (⟨2, 3⟩ : ModelParam ℚ))]

theorem predLoop_fst (T1 : ℚ) :
    ∀ (row : List ℚ) (j : ℕ) (r : List ℤ) (m : ℚ) (mj : ℤ),
      (predLoop T1 row j r m mj).1 = r ++ classesAboveFrom T1 row j := by
  intro row
  induction row with
  | nil =>
    intro j r m mj
    simp [predLoop, classesAboveFrom]
  | cons v rest ih =>
    intro j r m mj
    by_cases h1 : T1 < v <;> by_cases h2 : m < v <;>
      simp [predLoop, classesAboveFrom, h1, h2, ih]

theorem classesAboveFrom_mem (T1 : ℚ) :
    ∀ (row : List ℚ) (j0 : ℕ) (x : ℤ),
      x ∈ classesAboveFrom T1 row j0 ↔
        ∃ k, ∃ hk : k < row.length, x = ((j0 + k : ℕ) : ℤ) ∧ T1 < row.get ⟨k, hk⟩ := by
  intro row
  induction row with
  | nil =>
    intro j0 x
    simp [classesAboveFrom]
  | cons v rest ih =>
    intro j0 x
    constructor
    · intro hx
      by_cases h1 : T1 < v
      · simp only [classesAboveFrom, if_pos h1, List.mem_cons] at hx
        rcases hx with hx | hx
        · exact ⟨0, by simp, by simpa using hx, by simpa using h1⟩
        · rcases (ih (j0 + 1) x).mp hx with ⟨k, hk, hxk, hTk⟩
          refine ⟨k + 1, by simpa using Nat.succ_lt_succ hk, ?_, ?_⟩
          · rw [hxk]; congr 1; omega
          · simpa using hTk
      · simp only [classesAboveFrom, if_neg h1] at hx
        rcases (ih (j0 + 1) x).mp hx with ⟨k, hk, hxk, hTk⟩
        refine ⟨k + 1, by simpa using Nat.succ_lt_succ hk, ?_, ?_⟩
        · rw [hxk]; congr 1; omega
        · simpa using hTk
    · rintro ⟨k, hk, hxk, hTk⟩
      cases k with
      | zero =>
        have hv : T1 < v := by simpa using hTk
        simp only [classesAboveFrom, if_pos hv, List.mem_cons]
        left
        simpa using hxk
      | succ k2 =>
        have hmem : x ∈ classesAboveFrom T1 rest (j0 + 1) := by
          apply (ih (j0 + 1) x).mpr
          refine ⟨k2, by simpa using Nat.lt_of_succ_lt_succ hk, ?_, by simpa using hTk⟩
          rw [hxk]; congr 1; omega
        by_cases h1 : T1 < v
        · simp only [classesAboveFrom, if_pos h1, List.mem_cons]
          right; exact hmem
        · simpa only [classesAboveFrom, if_neg h1] using hmem

theorem predLoop_max (T1 : ℚ) :
    ∀ (row : List ℚ) (j0 : ℕ) (r : List ℤ) (m : ℚ) (mj : ℤ),
      ((predLoop T1 row j0 r m mj).2.1 = m ∧ (predLoop T1 row j0 r m mj).2.2 = mj ∧
        ∀ v ∈ row, v ≤ m) ∨
      (∃ k, ∃ hk : k < row.length,
        (predLoop T1 row j0 r m mj).2.1 = row.get ⟨k, hk⟩ ∧
        (predLoop T1 row j0 r m mj).2.2 = ((j0 + k : ℕ) : ℤ) ∧
        m < row.get ⟨k, hk⟩ ∧
        (∀ v ∈ row, v ≤ row.get ⟨k, hk⟩) ∧
        (∀ k2, ∀ hk2 : k2 < k, row.get ⟨k2, lt_trans hk2 hk⟩ < row.get ⟨k, hk⟩)) := by
  intro row
  induction row with
  | nil =>
    intro j0 r m mj
    left
    exact ⟨rfl, rfl, by simp⟩
  | cons v rest ih =>
    intro j0 r m mj
    by_cases h2 : m < v
    · have hstep : predLoop T1 (v :: rest) j0 r m mj
          = predLoop T1 rest (j0 + 1) (if T1 < v then r ++ [(j0 : ℤ)] else r) v (j0 : ℤ) := by
        simp [predLoop, h2]
      rw [hstep]
      rcases ih (j0 + 1) (if T1 < v then r ++ [(j0 : ℤ)] else r) v (j0 : ℤ) with
        ⟨e1, e2, hall⟩ | ⟨k, hk, e1, e2, hlt, hall, hfirst⟩
      · right
        refine ⟨0, by simp, by simpa using e1, by simpa using e2, by simpa using h2, ?_, ?_⟩
        · intro w hw
          rcases List.mem_cons.mp hw with hw | hw
          · simp [hw]
          · simpa using hall w hw
        · intro k2 hk2
          omega
      · right
        refine ⟨k + 1, by simpa using Nat.succ_lt_succ hk, by simpa using e1, ?_, ?_, ?_, ?_⟩
        · rw [e2]; congr 1; omega
        · calc m < v := h2
            _ < rest.get ⟨k, hk⟩ := hlt
        · intro w hw
          rcases List.mem_cons.mp hw with hw | hw
          · rw [hw]; exact le_of_lt hlt
          · exact hall w hw
        · intro k2 hk2
          cases k2 with
          | zero => exact hlt
          | succ k3 => exact hfirst k3 (Nat.lt_of_succ_lt_succ hk2)
    · have hstep : predLoop T1 (v :: rest) j0 r m mj
          = predLoop T1 rest (j0 + 1) (if T1 < v then r ++ [(j0 : ℤ)] else r) m mj := by
        simp [predLoop, h2]
      rw [hstep]
      have hvm : v ≤ m := le_of_not_lt h2
      rcases ih (j0 + 1) (if T1 < v then r ++ [(j0 : ℤ)] else r) m mj with
        ⟨e1, e2, hall⟩ | ⟨k, hk, e1, e2, hlt, hall, hfirst⟩
      · left
        refine ⟨e1, e2, ?_⟩
        intro w hw
        rcases List.mem_cons.mp hw with hw | hw
        · rw [hw]; exact hvm
        · exact hall w hw
      · right
        refine ⟨k + 1, by simpa using Nat.succ_lt_succ hk, by simpa using e1, ?_, ?_, ?_, ?_⟩
        · rw [e2]; congr 1; omega
        · exact hlt
        · intro w hw
          rcases List.mem_cons.mp hw with hw | hw
          · rw [hw]; exact le_of_lt (lt_of_le_of_lt hvm hlt)
          · exact hall w hw
        · intro k2 hk2
          cases k2 with
          | zero => exact lt_of_le_of_lt hvm hlt
          | succ k3 => exact hfirst k3 (Nat.lt_of_succ_lt_succ hk2)

theorem predRow_correct (row : List ℚ) (T1 T2 : ℚ) (hne : row ≠ [])
    (hpos : ∀ x ∈ row, 0 ≤ x) :
    (classesAboveFrom T1 row 0 ≠ [] → predRow row T1 T2 = classesAboveFrom T1 row 0) ∧
    (classesAboveFrom T1 row 0 = [] → ∃ k, ∃ hk : k < row.length,
      (∀ k2, ∀ hk2 : k2 < row.length, row.get ⟨k2, hk2⟩ ≤ row.get ⟨k, hk⟩) ∧
      (∀ k2, ∀ hk2 : k2 < k, row.get ⟨k2, lt_trans hk2 hk⟩ < row.get ⟨k, hk⟩) ∧
      predRow row T1 T2 = if T2 < row.get ⟨k, hk⟩ then [(k : ℤ)] else [36]) := by
  have hfst : (predLoop T1 row 0 [] (-1) (-1)).1 = classesAboveFrom T1 row 0 := by
    rw [predLoop_fst]; simp
  constructor
  · intro hnonnil
    unfold predRow
    simp only []
    rw [if_neg (by rw [hfst]; exact hnonnil)]
    exact hfst
  · intro hnil
    rcases predLoop_max T1 row 0 [] (-1) (-1) with
      ⟨_, _, hall⟩ | ⟨k, hk, e1, e2, _, hall, hfirst⟩
    · exfalso
      rcases List.exists_mem_of_ne_nil row hne with ⟨v, hv⟩
      have h1 : v ≤ -1 := hall v hv
      have h2 : (0 : ℚ) ≤ v := hpos v hv
      linarith
    · refine ⟨k, hk, ?_, hfirst, ?_⟩
      · intro k2 hk2
        exact hall _ (List.get_mem row k2 hk2)
      · unfold predRow
        simp only []
        rw [if_pos (by rw [hfst]; exact hnil), e1, e2]
        by_cases hT : T2 < row.get ⟨k, hk⟩
        · rw [if_neg (by linarith), if_pos hT]
          simp
        · rw [if_pos (by linarith), if_neg hT]

/-- Claim C2: for nonnegative scores (as sigmoid probabilities are) and
nonempty rows, getpred predicts per example exactly the classes strictly
above T1; when none qualify it predicts the first highest-scoring class if
its score is strictly above T2 and otherwise only the no-relation class 36. -/
theorem getpred_correct (result : List (List ℚ)) (T1 T2 : ℚ)
    (hne : ∀ row ∈ result, row ≠ []) (hpos : ∀ row ∈ result, ∀ x ∈ row, 0 ≤ x) :
    getpred result T1 T2 = result.map (fun row => predRow row T1 T2) ∧
    ∀ row ∈ result,
      (∀ x : ℤ, x ∈ classesAboveFrom T1 row 0 ↔
        ∃ k, ∃ hk : k < row.length, x = (k : ℤ) ∧ T1 < row.get ⟨k, hk⟩) ∧
      (classesAboveFrom T1 row 0 ≠ [] →
        predRow row T1 T2 = classesAboveFrom T1 row 0) ∧
      (classesAboveFrom T1 row 0 = [] → ∃ k, ∃ hk : k < row.length,
        (∀ k2, ∀ hk2 : k2 < row.length, row.get ⟨k2, hk2⟩ ≤ row.get ⟨k, hk⟩) ∧
        (∀ k2, ∀ hk2 : k2 < k, row.get ⟨k2, lt_trans hk2 hk⟩ < row.get ⟨k, hk⟩) ∧
        predRow row T1 T2 = if T2 < row.get ⟨k, hk⟩ then [(k : ℤ)] else [36]) := by
  refine ⟨rfl, ?_⟩
  intro row hrow
  refine ⟨?_, predRow_correct row T1 T2 (hne row hrow) (hpos row hrow)⟩
  intro x
  rw [classesAboveFrom_mem]
  constructor
  · rintro ⟨k, hk, hx, hT⟩
    exact ⟨k, hk, by simpa using hx, hT⟩
  · rintro ⟨k, hk, hx, hT⟩
    exact ⟨k, hk, by simpa using hx, hT⟩

theorem getpred_correct_witness :
    (∀ row ∈ [[(3 : ℚ) / 4, 1 / 4]], row ≠ []) ∧
    (∀ row ∈ [[(3 : ℚ) / 4, 1 / 4]], ∀ x ∈ row, 0 ≤ x) ∧
    (getpred [[(3 : ℚ) / 4, 1 / 4]] (1 / 2) (2 / 5)
        = [[(3 : ℚ) / 4, 1 / 4]].map (fun row => predRow row (1 / 2) (2 / 5)) ∧
      ∀ row ∈ [[(3 : ℚ) / 4, 1 / 4]],
        (∀ x : ℤ, x ∈ classesAboveFrom (1 / 2) row 0 ↔
          ∃ k, ∃ hk : k < row.length, x = (k : ℤ) ∧ 1 / 2 < row.get ⟨k, hk⟩) ∧
        (classesAboveFrom (1 / 2) row 0 ≠ [] →
          predRow row (1 / 2) (2 / 5) = classesAboveFrom (1 / 2) row 0) ∧
        (classesAboveFrom (1 / 2) row 0 = [] → ∃ k, ∃ hk : k < row.length,
          (∀ k2, ∀ hk2 : k2 < row.length, row.get ⟨k2, hk2⟩ ≤ row.get ⟨k, hk⟩) ∧
          (∀ k2, ∀ hk2 : k2 < k, row.get ⟨k2, lt_trans hk2 hk⟩ < row.get ⟨k, hk⟩) ∧
          predRow row (1 / 2) (2 / 5)
            = if 2 / 5 < row.get ⟨k, hk⟩ then [(k : ℤ)] else [36])) :=
  ⟨by decide, by norm_num,
    getpred_correct [[(3 : ℚ) / 4, 1 / 4]] (1 / 2) (2 / 5) (by decide) (by norm_num)⟩

theorem geteval_nonneg (devp data : List (List ℤ)) : 0 ≤ geteval devp data := by
  have hp : 0 ≤ precisionOf devp data := by
    unfold precisionOf
    split_ifs
    · norm_num
    · apply div_nonneg <;> positivity
  have hr : 0 ≤ recallOf devp data := by
    unfold recallOf
    split_ifs
    · exact le_refl 0
    · apply div_nonneg <;> positivity
  unfold geteval f1Combine
  split_ifs with h
  · exact div_nonneg (mul_nonneg (mul_nonneg (by norm_num) hp) hr) (add_nonneg hp hr)
  · exact le_refl 0

theorem f1step_fst_ge (probs : List (List ℚ)) (labels : List (List ℤ))
    (best : ℚ × ℚ) (t : ℕ) :
    best.1 ≤ (f1step probs labels best t).1 ∧
    f1At probs labels t ≤ (f1step probs labels best t).1 := by
  unfold f1step
  split_ifs with h
  · exact ⟨le_of_lt h, le_refl _⟩
  · exact ⟨le_refl _, le_of_not_lt h⟩

theorem f1search_fold_ge (probs : List (List ℚ)) (labels : List (List ℤ)) :
    ∀ (n : ℕ) (acc : ℚ × ℚ),
      acc.1 ≤ ((List.range n).foldl (f1step probs labels) acc).1 ∧
      ∀ s, s < n → f1At probs labels s ≤ ((List.range n).foldl (f1step probs labels) acc).1 := by
  intro n
  induction n with
  | zero =>
    intro acc
    exact ⟨le_refl _, fun s hs => absurd hs (by omega)⟩
  | succ n ih =>
    intro acc
    rw [List.range_succ, List.foldl_append]
    simp only [List.foldl_cons, List.foldl_nil]
    constructor
    · exact le_trans (ih acc).1
        (f1step_fst_ge probs labels ((List.range n).foldl (f1step probs labels) acc) n).1
    · intro s hs
      rcases Nat.lt_succ_iff_lt_or_eq.mp hs with hs | hs
      · exact le_trans ((ih acc).2 s hs)
          (f1step_fst_ge probs labels ((List.range n).foldl (f1step probs labels) acc) n).1
      · subst hs
        exact (f1step_fst_ge probs labels ((List.range s).foldl (f1step probs labels) acc) s).2

theorem f1search_fold_mem (probs : List (List ℚ)) (labels : List (List ℤ)) :
    ∀ (n : ℕ) (acc : ℚ × ℚ),
      ((List.range n).foldl (f1step probs labels) acc) = acc ∨
      ∃ t, t < n ∧ ((List.range n).foldl (f1step probs labels) acc)
        = (f1At probs labels t, (t : ℚ) / 100) := by
  intro n
  induction n with
  | zero => intro acc; left; rfl
  | succ n ih =>
    intro acc
    rw [List.range_succ, List.foldl_append]
    simp only [List.foldl_cons, List.foldl_nil]
    by_cases h : ((List.range n).foldl (f1step probs labels) acc).1 < f1At probs labels n
    · right
      refine ⟨n, by omega, ?_⟩
      simp only [f1step]
      rw [if_pos h]
    · have hkeep : f1step probs labels ((List.range n).foldl (f1step probs labels) acc) n
          = (List.range n).foldl (f1step probs labels) acc := by
        simp only [f1step]
        rw [if_neg h]
      rw [hkeep]
      rcases ih acc with hc | ⟨t, ht, hc⟩
      · left; exact hc
      · right; exact ⟨t, by omega, hc⟩

theorem f1search_fold_stay (probs : List (List ℚ)) (labels : List (List ℤ)) :
    ∀ (n : ℕ) (acc : ℚ × ℚ), (∀ t, t < n → f1At probs labels t ≤ acc.1) →
      (List.range n).foldl (f1step probs labels) acc = acc := by
  intro n
  induction n with
  | zero => intro acc _; rfl
  | succ n ih =>
    intro acc hall
    rw [List.range_succ, List.foldl_append]
    simp only [List.foldl_cons, List.foldl_nil]
    rw [ih acc (fun t ht => hall t (by omega))]
    simp only [f1step]
    rw [if_neg (not_lt.mpr (hall n (by omega)))]

theorem mkLabels_ok (lbls : List (List ℕ)) (h36 : ∀ l ∈ lbls, l.length = 36) :
    mkLabels lbls = .ok (lbls.map label_of) := by
  induction lbls with
  | nil => rfl
  | cons l rest ih =>
    have h1 : l.length = 36 := h36 l (List.mem_cons_self l rest)
    have h2 := ih (fun x hx => h36 x (List.mem_cons_of_mem l hx))
    simp [mkLabels, h1, h2]

/-- Claim C1: under the two asserts of f1_eval (each label vector has 36
entries and there are as many label vectors as logit rows), f1_eval returns
the pair (bestf_1, bestT2) where bestT2 is one of the 51 thresholds t/100
with t ≤ 50, bestf_1 is attained at bestT2, bestf_1 is at least 0 and is
an upper bound of the micro-F1 of the getpred predictions at every one of
the 51 thresholds. -/
theorem f1_eval_correct (probs : List (List ℚ)) (lbls : List (List ℕ))
    (h36 : ∀ l ∈ lbls, l.length = 36) (hlen : lbls.length = probs.length) :
    f1_eval probs lbls = .ok (f1search probs (lbls.map label_of)) ∧
    0 ≤ (f1search probs (lbls.map label_of)).1 ∧
    ∃ t : ℕ, t ≤ 50 ∧
      (f1search probs (lbls.map label_of)).2 = (t : ℚ) / 100 ∧
      (f1search probs (lbls.map label_of)).1 = f1At probs (lbls.map label_of) t ∧
      ∀ s, s ≤ 50 → f1At probs (lbls.map label_of) s
        ≤ (f1search probs (lbls.map label_of)).1 := by
  have hmk := mkLabels_ok lbls h36
  have heval : f1_eval probs lbls = .ok (f1search probs (lbls.map label_of)) := by
    simp [f1_eval, hmk, List.length_map, hlen]
  have hge := f1search_fold_ge probs (lbls.map label_of) 51 (0, 0)
  have hnn : (0 : ℚ) ≤ (f1search probs (lbls.map label_of)).1 := hge.1
  refine ⟨heval, hnn, ?_⟩
  rcases f1search_fold_mem probs (lbls.map label_of) 51 (0, 0) with hc | ⟨t, ht, hc⟩
  · have hs : f1search probs (lbls.map label_of) = ((0 : ℚ), (0 : ℚ)) := hc
    refine ⟨0, by omega, ?_, ?_, ?_⟩
    · rw [hs]; norm_num
    · have h1 : f1At probs (lbls.map label_of) 0 ≤ 0 := by
        have h2 := hge.2 0 (by omega)
        rw [show ((List.range 51).foldl (f1step probs (lbls.map label_of)) (0, 0))
          = ((0 : ℚ), (0 : ℚ)) from hc] at h2
        exact h2
      have h3 : 0 ≤ f1At probs (lbls.map label_of) 0 := geteval_nonneg _ _
      rw [hs]
      exact (le_antisymm h1 h3).symm
    · intro s hss
      exact hge.2 s (by omega)
  · have hs : f1search probs (lbls.map label_of)
        = (f1At probs (lbls.map label_of) t, (t : ℚ) / 100) := hc
    refine ⟨t, by omega, by rw [hs], by rw [hs], ?_⟩
    intro s hss
    exact hge.2 s (by omega)

theorem f1_eval_correct_witness :
    (∀ l ∈ [List.replicate 36 0], l.length = 36) ∧
    ([List.replicate 36 0].length = [([] : List ℚ)].length) ∧
    (f1_eval [[]] [List.replicate 36 0]
        = .ok (f1search [[]] ([List.replicate 36 0].map label_of)) ∧
      0 ≤ (f1search [[]] ([List.replicate 36 0].map label_of)).1 ∧
      ∃ t : ℕ, t ≤ 50 ∧
        (f1search [[]] ([List.replicate 36 0].map label_of)).2 = (t : ℚ) / 100 ∧
        (f1search [[]] ([List.replicate 36 0].map label_of)).1
          = f1At [[]] ([List.replicate 36 0].map label_of) t ∧
        ∀ s, s ≤ 50 → f1At [[]] ([List.replicate 36 0].map label_of) s
          ≤ (f1search [[]] ([List.replicate 36 0].map label_of)).1) :=
  ⟨by decide, rfl,
    f1_eval_correct [[]] [List.replicate 36 0] (by decide) rfl⟩

theorem goldHits_le_goldCount (pred gold : List ℤ) :
    goldHits pred gold ≤ goldCount gold := by
  unfold goldHits goldCount
  rw [List.filter_congr
    (fun a _ => Bool.and_comm (decide (a ≠ 36)) (decide (a ∈ pred)))]
  rw [← List.filter_filter]
  exact List.length_filter_le _ _

theorem goldHits_le_sysCount (pred gold : List ℤ) (hnd : gold.Nodup) :
    goldHits pred gold ≤ sysCount pred := by
  unfold goldHits sysCount
  apply List.Subperm.length_le
  apply List.Nodup.subperm (hnd.filter _)
  intro x hx
  rw [List.mem_filter] at hx ⊢
  obtain ⟨hxg, hcond⟩ := hx
  simp only [Bool.and_eq_true, decide_eq_true_eq] at hcond
  exact ⟨hcond.2, by simp [hcond.1]⟩

theorem correct_sys_le_correct_gt (devp data : List (List ℤ)) :
    correct_sys devp data ≤ correct_gt devp data :=
  List.sum_le_sum (fun p _ => goldHits_le_goldCount p.2 p.1)

theorem correct_sys_le_all_sys (devp data : List (List ℤ))
    (hnd : ∀ r ∈ data, r.Nodup) :
    correct_sys devp data ≤ all_sys devp data :=
  List.sum_le_sum (fun p hp =>
    goldHits_le_sysCount p.2 p.1 (hnd p.1 (List.of_mem_zip hp).1))

theorem precisionOf_nonneg (devp data : List (List ℤ)) : 0 ≤ precisionOf devp data := by
  unfold precisionOf
  split_ifs
  · norm_num
  · apply div_nonneg <;> positivity

theorem recallOf_nonneg (devp data : List (List ℤ)) : 0 ≤ recallOf devp data := by
  unfold recallOf
  split_ifs
  · exact le_refl 0
  · apply div_nonneg <;> positivity

theorem precisionOf_le_one (devp data : List (List ℤ))
    (hnd : ∀ r ∈ data, r.Nodup) : precisionOf devp data ≤ 1 := by
  unfold precisionOf
  split_ifs with h
  · exact le_refl 1
  · rw [div_le_one (by exact_mod_cast Nat.pos_of_ne_zero h)]
    exact_mod_cast correct_sys_le_all_sys devp data hnd

theorem recallOf_le_one (devp data : List (List ℤ)) : recallOf devp data ≤ 1 := by
  unfold recallOf
  split_ifs with h
  · norm_num
  · rw [div_le_one (by exact_mod_cast Nat.pos_of_ne_zero h)]
    exact_mod_cast correct_sys_le_correct_gt devp data

theorem f1Combine_le_one (p r : ℚ) (hp0 : 0 ≤ p) (hp1 : p ≤ 1)
    (hr0 : 0 ≤ r) (hr1 : r ≤ 1) : f1Combine p r ≤ 1 := by
  unfold f1Combine
  split_ifs with h
  · rw [div_le_one (lt_of_le_of_ne (add_nonneg hp0 hr0) (Ne.symm h))]
    nlinarith [mul_le_of_le_one_right hp0 hr1, mul_le_of_le_one_left hr0 hp1]
  · norm_num

theorem geteval_le_one (devp data : List (List ℤ))
    (hnd : ∀ r ∈ data, r.Nodup) : geteval devp data ≤ 1 :=
  f1Combine_le_one _ _ (precisionOf_nonneg devp data)
    (precisionOf_le_one devp data hnd) (recallOf_nonneg devp data)
    (recallOf_le_one devp data)

theorem zip_self_eq {α : Type} : ∀ l : List α, l.zip l = l.map (fun x => (x, x)) := by
  intro l
  induction l with
  | nil => rfl
  | cons a l ih => simp [List.zip_cons_cons, ih]

theorem goldHits_self (gold : List ℤ) : goldHits gold gold = goldCount gold := by
  unfold goldHits goldCount
  congr 1
  apply List.filter_congr
  intro i hi
  simp [hi]

theorem label_of_nodup (lbl : List ℕ) : (label_of lbl).Nodup := by
  have h1 : (((List.range 36).filter
      (fun i => decide (lbl.getD i 0 = 1))).map (fun i => Int.ofNat i)).Nodup := by
    apply List.Nodup.map
    · intro a b hab
      exact Int.ofNat.inj hab
    · exact (List.nodup_range 36).filter _
  unfold label_of
  simp only []
  split_ifs with h
  · simp
  · exact h1

theorem geteval_perfect (data : List (List ℤ))
    (h : ∃ r ∈ data, ∃ i ∈ r, i ≠ 36) : geteval data data = 1 := by
  have hzip : data.zip data = data.map (fun r => (r, r)) := zip_self_eq data
  have hsys_eq : correct_sys data data = correct_gt data data := by
    unfold correct_sys correct_gt
    rw [hzip, List.map_map, List.map_map]
    congr 1
    apply List.map_congr_left
    intro r _
    show goldHits r r = goldCount r
    exact goldHits_self r
  have hall_eq : all_sys data data = correct_gt data data := by
    unfold all_sys correct_gt
    rw [hzip, List.map_map, List.map_map]
    rfl
  have hpos : 0 < correct_gt data data := by
    rcases h with ⟨r, hr, i, hi, hne⟩
    have h1 : 0 < goldCount r := by
      unfold goldCount
      rw [List.length_pos]
      exact List.ne_nil_of_mem (List.mem_filter.mpr ⟨hi, by simp [hne]⟩)
    calc 0 < goldCount r := h1
      _ ≤ correct_gt data data := by
        unfold correct_gt
        rw [hzip, List.map_map]
        exact List.single_le_sum (fun x _ => Nat.zero_le x) _
          (List.mem_map_of_mem _ hr)
  have hP : precisionOf data data = 1 := by
    unfold precisionOf
    rw [hall_eq, hsys_eq, if_neg (by omega)]
    exact div_self (Nat.cast_ne_zero.mpr (by omega))
  have hR : recallOf data data = 1 := by
    unfold recallOf
    rw [hsys_eq, if_neg (by omega)]
    exact div_self (Nat.cast_ne_zero.mpr (by omega))
  unfold geteval f1Combine
  rw [hP, hR]
  norm_num

/-- Claim C4 counterexample: one example whose 36-entry label vector is all
zeros gets the gold list [36]; with all scores 1/10 the predictions at the
default threshold T2 = 0.4 equal the gold lists exactly (a perfect
prediction set), yet geteval scores them 0, not 1, and f1_eval returns best
F1 0, because a dataset without any gold relation has recall 0. -/
theorem perfect_f1_counterexample :
    mkLabels [List.replicate 36 0] = .ok [[36]] ∧
    getpred [List.replicate 36 ((1 : ℚ) / 10)] (1 / 2) (2 / 5) = [[36]] ∧
    geteval [[36]] [[36]] = 0 ∧
    f1_eval [List.replicate 36 ((1 : ℚ) / 10)] [List.replicate 36 0] = .ok (0, 0) := by
  refine ⟨by rfl, ?_, ?_, ?_⟩
  · norm_num [getpred, predRow, predLoop, List.replicate]
  · exact geteval_zero_of_all36 [[36]] [[36]] (by decide)
  · have hmk : mkLabels [List.replicate 36 0] = .ok [[36]] := by rfl
    have hstay : f1search [List.replicate 36 ((1 : ℚ) / 10)] [[36]] = (0, 0) := by
      unfold f1search
      apply f1search_fold_stay
      intro t _
      have hz : f1At [List.replicate 36 ((1 : ℚ) / 10)] [[36]] t = 0 :=
        geteval_zero_of_all36 _ _ (by decide)
      rw [hz]
    simp only [f1_eval, hmk]
    rw [if_pos (by simp), hstay]

/-- Claim C4, amended: if some search threshold t0/100 makes the getpred
predictions exactly equal to the gold label lists and at least one example
has a gold relation other than the no-relation class 36, then geteval
scores those predictions 1.0 and f1_eval returns best F1 equal to 1.0.
(The all-no-relation case must be excluded: there geteval returns 0 on a
perfect prediction set, see the counterexample.) -/
theorem f1_eval_perfect (probs : List (List ℚ)) (lbls : List (List ℕ))
    (h36 : ∀ l ∈ lbls, l.length = 36) (hlen : lbls.length = probs.length)
    (t0 : ℕ) (ht0 : t0 ≤ 50)
    (hperf : getpred probs (1 / 2) ((t0 : ℚ) / 100) = lbls.map label_of)
    (hrel : ∃ r ∈ lbls.map label_of, ∃ i ∈ r, i ≠ 36) :
    geteval (getpred probs (1 / 2) ((t0 : ℚ) / 100)) (lbls.map label_of) = 1 ∧
    f1_eval probs lbls = .ok (f1search probs (lbls.map label_of)) ∧
    (f1search probs (lbls.map label_of)).1 = 1 := by
  have h1 : geteval (getpred probs (1 / 2) ((t0 : ℚ) / 100)) (lbls.map label_of) = 1 := by
    rw [hperf]
    exact geteval_perfect _ hrel
  have hmk := mkLabels_ok lbls h36
  have heval : f1_eval probs lbls = .ok (f1search probs (lbls.map label_of)) := by
    simp [f1_eval, hmk, List.length_map, hlen]
  refine ⟨h1, heval, ?_⟩
  have hub : 1 ≤ (f1search probs (lbls.map label_of)).1 := by
    have hge := (f1search_fold_ge probs (lbls.map label_of) 51 (0, 0)).2 t0 (by omega)
    have hf : f1At probs (lbls.map label_of) t0 = 1 := h1
    rw [hf] at hge
    exact hge
  have hnodup : ∀ r ∈ lbls.map label_of, r.Nodup := by
    intro r hr
    rcases List.mem_map.mp hr with ⟨l, _, hEq⟩
    exact hEq ▸ label_of_nodup l
  have hle : (f1search probs (lbls.map label_of)).1 ≤ 1 := by
    rcases f1search_fold_mem probs (lbls.map label_of) 51 (0, 0) with hc | ⟨t, ht, hc⟩
    · have hs : f1search probs (lbls.map label_of) = ((0 : ℚ), (0 : ℚ)) := hc
      rw [hs]
      norm_num
    · have hs : f1search probs (lbls.map label_of)
          = (f1At probs (lbls.map label_of) t, (t : ℚ) / 100) := hc
      rw [hs]
      exact geteval_le_one _ _ hnodup
  linarith

theorem f1_eval_perfect_witness :
    (∀ l ∈ [1 :: List.replicate 35 0], l.length = 36) ∧
    ([1 :: List.replicate 35 0].length
      = [(9 : ℚ) / 10 :: List.replicate 35 (1 / 10)].length) ∧
    (0 : ℕ) ≤ 50 ∧
    getpred [(9 : ℚ) / 10 :: List.replicate 35 (1 / 10)] (1 / 2) (((0 : ℕ) : ℚ) / 100)
      = [1 :: List.replicate 35 0].map label_of ∧
    (∃ r ∈ [1 :: List.replicate 35 0].map label_of, ∃ i ∈ r, i ≠ 36) ∧
    (geteval (getpred [(9 : ℚ) / 10 :: List.replicate 35 (1 / 10)] (1 / 2)
        (((0 : ℕ) : ℚ) / 100)) ([1 :: List.replicate 35 0].map label_of) = 1 ∧
      f1_eval [(9 : ℚ) / 10 :: List.replicate 35 (1 / 10)] [1 :: List.replicate 35 0]
        = .ok (f1search [(9 : ℚ) / 10 :: List.replicate 35 (1 / 10)]
            ([1 :: List.replicate 35 0].map label_of)) ∧
      (f1search [(9 : ℚ) / 10 :: List.replicate 35 (1 / 10)]
          ([1 :: List.replicate 35 0].map label_of)).1 = 1) := by
  have hmap : [1 :: List.replicate 35 0].map label_of = [[0]] := by decide
  have hperf : getpred [(9 : ℚ) / 10 :: List.replicate 35 (1 / 10)] (1 / 2)
      (((0 : ℕ) : ℚ) / 100) = [1 :: List.replicate 35 0].map label_of := by
    rw [hmap]
    norm_num [getpred, predRow, predLoop, List.replicate]
  have hrel : ∃ r ∈ [1 :: List.replicate 35 0].map label_of, ∃ i ∈ r, i ≠ 36 := by
    rw [hmap]
    refine ⟨[0], by simp, 0, by simp, by norm_num⟩
  exact ⟨by decide, by rfl, by omega, hperf, hrel,
    f1_eval_perfect [(9 : ℚ) / 10 :: List.replicate 35 (1 / 10)]
      [1 :: List.replicate 35 0] (by decide) (by rfl) 0 (by omega) hperf hrel⟩

/-- Lines 272-275: when fp16 with loss_scale ≠ 1, every model gradient is
divided by the loss scale before bridging (scaleGrad abstracts the tensor
division param.grad.data / loss_scale). -/
def scaleModelGrads {α : Type} (scaleGrad : α → ℚ → α) (fp16 : Bool) (loss_scale : ℚ)
    (model : List (String × ModelParam α)) : List (String × ModelParam α) :=
  if fp16 && decide (loss_scale ≠ 1) then
    model.map (fun p => (p.1, { p.2 with grad := scaleGrad p.2.grad loss_scale }))
  else model

/-- Lines 282 and 288: model.zero_grad() sets every model gradient to the
zero value. -/
def zeroGrads {α : Type} (zero : α) (model : List (String × ModelParam α)) :
    List (String × ModelParam α) :=
  model.map (fun p => (p.1, { p.2 with grad := zero }))

/-- Lines 270-289 in the fp16 / optimize_on_cpu branch, run at an
optimizer-step boundary: scale gradients down, bridge them to the shadow
copy with NaN detection; on NaN halve the loss scale, zero the model
gradients and continue (no optimizer step, global_step unchanged);
otherwise step the optimizer on the shadow copy (optStep abstracts
optimizer.step()), copy the updated values back, zero the gradients and
advance global_step. Returns (loss_scale, model, param_optimizer,
global_step). -/
def gradStepBoundary {α : Type} (isNan : α → Bool) (scaleGrad : α → ℚ → α) (zero : α)
    (optStep : List (String × OptiParam α) → List (String × OptiParam α))
    (fp16 : Bool) (loss_scale : ℚ)
    (model : List (String × ModelParam α)) (param_optimizer : List (String × OptiParam α))
    (global_step : ℕ) :
    Except Unit (ℚ × List (String × ModelParam α) × List (String × OptiParam α) × ℕ) :=
  let model2 := scaleModelGrads scaleGrad fp16 loss_scale model
  match set_optimizer_params_grad isNan true param_optimizer model2 with
  | .error e => .error e
  | .ok (opti2, is_nan) =>
    if is_nan then .ok (loss_scale / 2, zeroGrads zero model2, opti2, global_step)
    else
      let opti3 := optStep opti2
      match copy_optimizer_params_to_model model2 opti3 with
      | .error e => .error e
      | .ok model3 => .ok (loss_scale, zeroGrads zero model3, opti3, global_step + 1)

theorem sogn_preserves_data {α : Type} (isNan : α → Bool) (test_nan : Bool) :
    ∀ (os : List (String × OptiParam α)) (ms : List (String × ModelParam α))
      (os2 : List (String × OptiParam α)) (b : Bool),
      set_optimizer_params_grad isNan test_nan os ms = .ok (os2, b) →
      os2.map (fun p => (p.1, p.2.data)) = os.map (fun p => (p.1, p.2.data)) := by
  intro os
  induction os with
  | nil =>
    intro ms os2 b h
    cases ms with
    | nil =>
      simp only [set_optimizer_params_grad] at h
      cases h
      rfl
    | cons m ms =>
      simp only [set_optimizer_params_grad] at h
      cases h
      rfl
  | cons o os ih =>
    intro ms os2 b h
    cases ms with
    | nil =>
      simp only [set_optimizer_params_grad] at h
      cases h
      rfl
    | cons m ms =>
      obtain ⟨no, po⟩ := o
      obtain ⟨nm, pm⟩ := m
      by_cases hname : no = nm
      · subst hname
        simp only [set_optimizer_params_grad] at h
        rw [if_neg (fun hne => hne rfl)] at h
        cases hrec : set_optimizer_params_grad isNan test_nan os ms with
        | error e =>
          rw [hrec] at h
          cases h
        | ok p =>
          obtain ⟨os3, nan3⟩ := p
          rw [hrec] at h
          cases h
          simp only [List.map_cons]
          rw [ih ms os3 nan3 hrec]
      · simp only [set_optimizer_params_grad, if_pos hname] at h
        cases h

/-- Claim C7: at an fp16 optimizer-step boundary, if the gradient bridge
reports a NaN (names all matching), the step halves loss_scale, zeroes the
model gradients and continues without raising; the result is the same for
every optimizer step function (optimizer.step() is never called), the
shadow parameter values and the model parameter values are unchanged. -/
theorem nan_grad_skips_step {α : Type} (isNan : α → Bool) (scaleGrad : α → ℚ → α)
    (zero : α) (loss_scale : ℚ)
    (model : List (String × ModelParam α)) (param_optimizer : List (String × OptiParam α))
    (global_step : ℕ) (opti2 : List (String × OptiParam α))
    (h : set_optimizer_params_grad isNan true param_optimizer
      (scaleModelGrads scaleGrad true loss_scale model) = .ok (opti2, true)) :
    ∀ optStep,
      gradStepBoundary isNan scaleGrad zero optStep true loss_scale model
          param_optimizer global_step
        = .ok (loss_scale / 2,
            zeroGrads zero (scaleModelGrads scaleGrad true loss_scale model),
            opti2, global_step) ∧
      opti2.map (fun p => (p.1, p.2.data))
        = param_optimizer.map (fun p => (p.1, p.2.data)) ∧
      (zeroGrads zero (scaleModelGrads scaleGrad true loss_scale model)).map
          (fun p => (p.1, p.2.data))
        = model.map (fun p => (p.1, p.2.data)) ∧
      ∀ p ∈ zeroGrads zero (scaleModelGrads scaleGrad true loss_scale model),
        p.2.grad = zero := by
  intro optStep
  refine ⟨?_, sogn_preserves_data isNan true param_optimizer _ opti2 true h, ?_, ?_⟩
  · unfold gradStepBoundary
    simp only []
    rw [h]
    rfl
  · unfold zeroGrads scaleModelGrads
    split_ifs
    · simp only [List.map_map]
      rfl
    · simp only [List.map_map]
      rfl
  · intro p hp
    rcases List.mem_map.mp hp with ⟨q, _, hEq⟩
    rw [← hEq]

theorem nan_grad_skips_step_witness :
    (set_optimizer_params_grad (fun _ : ℚ => true) true
        [("w", (⟨1, none⟩ : OptiParam ℚ))]
        (scaleModelGrads (fun g s => g / s) true 1 [("w", (⟨1, 8⟩ : ModelParam ℚ))])
      = .ok ([("w", (⟨1, some 8⟩ : OptiParam ℚ))], true)) ∧
    (gradStepBoundary (fun _ : ℚ => true) (fun g s => g / s) 0 id true 1
        [("w", (⟨1, 8⟩ : ModelParam ℚ))] [("w", (⟨1, none⟩ : OptiParam ℚ))] 0
      = .ok (1 / 2,
          zeroGrads 0 (scaleModelGrads (fun g s => g / s) true 1
            [("w", (⟨1, 8⟩ : ModelParam ℚ))]),
          [("w", (⟨1, some 8⟩ : OptiParam ℚ))], 0) ∧
      [("w", (⟨1, some 8⟩ : OptiParam ℚ))].map (fun p => (p.1, p.2.data))
        = [("w", (⟨1, none⟩ : OptiParam ℚ))].map (fun p => (p.1, p.2.data)) ∧
      (zeroGrads 0 (scaleModelGrads (fun g s => g / s) true 1
          [("w", (⟨1, 8⟩ : ModelParam ℚ))])).map (fun p => (p.1, p.2.data))
        = [("w", (⟨1, 8⟩ : ModelParam ℚ))].map (fun p => (p.1, p.2.data)) ∧
      ∀ p ∈ zeroGrads 0 (scaleModelGrads (fun g s => g / s) true 1
          [("w", (⟨1, 8⟩ : ModelParam ℚ))]), p.2.grad = 0) := by
  have hscale : scaleModelGrads (fun g s => g / s) true 1
      [("w", (⟨1, 8⟩ : ModelParam ℚ))] = [("w", (⟨1, 8⟩ : ModelParam ℚ))] := by
    unfold scaleModelGrads
    rw [if_neg (by simp)]
  have h : set_optimizer_params_grad (fun _ : ℚ => true) true
      [("w", (⟨1, none⟩ : OptiParam ℚ))]
      (scaleModelGrads (fun g s => g / s) true 1 [("w", (⟨1, 8⟩ : ModelParam ℚ))])
      = .ok ([("w", (⟨1, some 8⟩ : OptiParam ℚ))], true) := by
    rw [hscale]
    rfl
  exact ⟨h, nan_grad_skips_step (fun _ : ℚ => true) (fun g s => g / s) 0 1
    [("w", (⟨1, 8⟩ : ModelParam ℚ))] [("w", (⟨1, none⟩ : OptiParam ℚ))] 0
    [("w", (⟨1, some 8⟩ : OptiParam ℚ))] h id⟩

/-- One preprocessed example as stacked by datset_collate_fn (lines
159-165): token ids, length, attention mask, segment ids, the two
entity-span masks, and the label vector. -/
structure Sample where
  input_ids : List ℤ
  input_len : ℤ
  input_mask : List ℤ
  segment_ids : List ℤ
  e1_mask : List ℤ
  e2_mask : List ℤ
  label_ids : List ℤ
  deriving DecidableEq

/-- Line 166: keep_column_mask = input_ids.ne(pad).any(dim=0): one boolean
per column of the stacked input_ids (the common row width, i.e. the width
of the first row), true when some sample has a non-pad token there. -/
def keepColumnMask (pad : ℤ) (ids : List (List ℤ)) : List Bool :=
  (List.range (ids.headD []).length).map
    (fun j => ids.any (fun row => decide (row.getD j pad ≠ pad)))

/-- Boolean-mask column selection M[:, mask] applied to one row. -/
def selectCols {α : Type} (keep : List Bool) (row : List α) : List α :=
  ((row.zip keep).filter (fun p => p.2)).map (fun p => p.1)

/-- The collated batch (line 168): 7 stacked fields, 5 of them
column-pruned. -/
structure Batch where
  input_ids : List (List ℤ)
  input_lens : List ℤ
  input_mask : List (List ℤ)
  segment_ids : List (List ℤ)
  e1_mask : List (List ℤ)
  e2_mask : List (List ℤ)
  label_ids : List (List ℤ)
  deriving DecidableEq

/-- Lines 156-168: stacks the 7 fields of the samples and drops the
fully-padding columns of input_ids from the 5 sequence-shaped fields. -/
def datset_collate_fn (pad : ℤ) (samples : List Sample) : Batch :=
  let ids := samples.map (fun s => s.input_ids)
  let keep := keepColumnMask pad ids
  { input_ids := ids.map (selectCols keep)
    input_lens := samples.map (fun s => s.input_len)
    input_mask := (samples.map (fun s => s.input_mask)).map (selectCols keep)
    segment_ids := (samples.map (fun s => s.segment_ids)).map (selectCols keep)
    e1_mask := (samples.map (fun s => s.e1_mask)).map (selectCols keep)
    e2_mask := (samples.map (fun s => s.e2_mask)).map (selectCols keep)
    label_ids := samples.map (fun s => s.label_ids) }

/-- Spec-side reading of C6: keep exactly the columns j with keepB j true,
in order and with unchanged content, column indices counted from j0. -/
def colsKept {α : Type} (keepB : ℕ → Bool) : List α → ℕ → List α
  | [], _ => []
  | v :: rest, j =>
    if keepB j then v :: colsKept keepB rest (j + 1) else colsKept keepB rest (j + 1)

/-- Spec-side reading of C6: column j holds a non-pad input token in some
sample. -/
def keepB (pad : ℤ) (samples : List Sample) (j : ℕ) : Bool :=
  samples.any (fun s => decide (s.input_ids.getD j pad ≠ pad))

theorem selectCols_ranged {α : Type} (f : ℕ → Bool) :
    ∀ (row : List α) (off n : ℕ), row.length = n →
      selectCols ((List.range' off n).map f) row = colsKept f row off := by
  intro row
  induction row with
  | nil =>
    intro off n h
    subst h
    rfl
  | cons v rest ih =>
    intro off n h
    cases n with
    | zero => cases h
    | succ m =>
      have hm : rest.length = m := by simpa using h
      rw [List.range'_succ]
      simp only [List.map_cons]
      unfold selectCols colsKept
      rw [List.zip_cons_cons, List.filter_cons]
      by_cases hf : f off
      · rw [if_pos (by simpa using hf), if_pos hf]
        simp only [List.map_cons]
        rw [show ((rest.zip ((List.range' (off + 1) m).map f)).filter
          (fun p => p.2)).map (fun p => p.1) = selectCols ((List.range' (off + 1) m).map f) rest from rfl]
        rw [ih (off + 1) m hm]
      · rw [if_neg (by simpa using hf), if_neg hf]
        rw [show ((rest.zip ((List.range' (off + 1) m).map f)).filter
          (fun p => p.2)).map (fun p => p.1) = selectCols ((List.range' (off + 1) m).map f) rest from rfl]
        rw [ih (off + 1) m hm]

theorem any_map_general {α β : Type} (l : List α) (f : α → β) (p : β → Bool) :
    (l.map f).any p = l.any (fun a => p (f a)) := by
  induction l with
  | nil => rfl
  | cons a l ih => simp [ih]

theorem keepColumnMask_eq (pad : ℤ) (samples : List Sample) (L : ℕ)
    (hne : samples ≠ []) (hw : ∀ s ∈ samples, s.input_ids.length = L) :
    keepColumnMask pad (samples.map (fun s => s.input_ids))
      = (List.range' 0 L).map (keepB pad samples) := by
  obtain ⟨s0, rest, rfl⟩ := List.exists_cons_of_ne_nil hne
  unfold keepColumnMask
  simp only [List.map_cons, List.headD_cons]
  rw [hw s0 (by simp), ← List.range_eq_range']
  apply List.map_congr_left
  intro j _
  rw [show (s0.input_ids :: List.map (fun s => s.input_ids) rest)
    = List.map (fun s => s.input_ids) (s0 :: rest) from rfl]
  rw [any_map_general]
  rfl

/-- Claim C6: datset_collate_fn keeps, for each of the five sequence-shaped
fields, exactly the columns in which some sample has a non-pad input token,
in order and with unchanged content (so all non-pad content is preserved),
drops a column exactly when it is padding in every sample, and passes
input_lens and label_ids through unchanged. -/
theorem datset_collate_correct (pad : ℤ) (samples : List Sample) (L : ℕ)
    (hne : samples ≠ [])
    (hids : ∀ s ∈ samples, s.input_ids.length = L)
    (hmask : ∀ s ∈ samples, s.input_mask.length = L)
    (hseg : ∀ s ∈ samples, s.segment_ids.length = L)
    (he1 : ∀ s ∈ samples, s.e1_mask.length = L)
    (he2 : ∀ s ∈ samples, s.e2_mask.length = L) :
    (datset_collate_fn pad samples).input_ids
      = samples.map (fun s => colsKept (keepB pad samples) s.input_ids 0) ∧
    (datset_collate_fn pad samples).input_mask
      = samples.map (fun s => colsKept (keepB pad samples) s.input_mask 0) ∧
    (datset_collate_fn pad samples).segment_ids
      = samples.map (fun s => colsKept (keepB pad samples) s.segment_ids 0) ∧
    (datset_collate_fn pad samples).e1_mask
      = samples.map (fun s => colsKept (keepB pad samples) s.e1_mask 0) ∧
    (datset_collate_fn pad samples).e2_mask
      = samples.map (fun s => colsKept (keepB pad samples) s.e2_mask 0) ∧
    (datset_collate_fn pad samples).input_lens = samples.map (fun s => s.input_len) ∧
    (datset_collate_fn pad samples).label_ids = samples.map (fun s => s.label_ids) ∧
    ∀ j, j < L → (keepB pad samples j = false ↔
      ∀ s ∈ samples, s.input_ids.getD j pad = pad) := by
  have hkeep := keepColumnMask_eq pad samples L hne hids
  have hfield : ∀ (g : Sample → List ℤ), (∀ s ∈ samples, (g s).length = L) →
      (samples.map g).map
          (selectCols (keepColumnMask pad (samples.map (fun s => s.input_ids))))
        = samples.map (fun s => colsKept (keepB pad samples) (g s) 0) := by
    intro g hg
    rw [List.map_map]
    apply List.map_congr_left
    intro s hs
    show selectCols (keepColumnMask pad (samples.map (fun s => s.input_ids))) (g s)
      = colsKept (keepB pad samples) (g s) 0
    rw [hkeep]
    exact selectCols_ranged (keepB pad samples) (g s) 0 L (hg s hs)
  refine ⟨hfield (fun s => s.input_ids) hids, hfield (fun s => s.input_mask) hmask,
    hfield (fun s => s.segment_ids) hseg, hfield (fun s => s.e1_mask) he1,
    hfield (fun s => s.e2_mask) he2, rfl, rfl, ?_⟩
  intro j _
  rw [show keepB pad samples j
    = samples.any (fun s => decide (s.input_ids.getD j pad ≠ pad)) from rfl]
  rw [← Bool.not_eq_true, List.any_eq_true]
  push_neg
  constructor
  · intro h s hs
    simpa using h s hs
  · intro h s hs
    simpa using h s hs

theorem datset_collate_correct_witness :
    ([(⟨[7, 0], 2, [1, 1], [5, 5], [1, 0], [0, 1], [1, 0]⟩ : Sample)] ≠ []) ∧
    (∀ s ∈ [(⟨[7, 0], 2, [1, 1], [5, 5], [1, 0], [0, 1], [1, 0]⟩ : Sample)],
      s.input_ids.length = 2) ∧
    ((datset_collate_fn 0 [(⟨[7, 0], 2, [1, 1], [5, 5], [1, 0], [0, 1], [1, 0]⟩ : Sample)]).input_ids
      = [(⟨[7, 0], 2, [1, 1], [5, 5], [1, 0], [0, 1], [1, 0]⟩ : Sample)].map
          (fun s => colsKept (keepB 0 [(⟨[7, 0], 2, [1, 1], [5, 5], [1, 0], [0, 1], [1, 0]⟩ : Sample)]) s.input_ids 0) ∧
    (datset_collate_fn 0 [(⟨[7, 0], 2, [1, 1], [5, 5], [1, 0], [0, 1], [1, 0]⟩ : Sample)]).input_mask
      = [(⟨[7, 0], 2, [1, 1], [5, 5], [1, 0], [0, 1], [1, 0]⟩ : Sample)].map
          (fun s => colsKept (keepB 0 [(⟨[7, 0], 2, [1, 1], [5, 5], [1, 0], [0, 1], [1, 0]⟩ : Sample)]) s.input_mask 0) ∧
    (datset_collate_fn 0 [(⟨[7, 0], 2, [1, 1], [5, 5], [1, 0], [0, 1], [1, 0]⟩ : Sample)]).segment_ids
      = [(⟨[7, 0], 2, [1, 1], [5, 5], [1, 0], [0, 1], [1, 0]⟩ : Sample)].map
          (fun s => colsKept (keepB 0 [(⟨[7, 0], 2, [1, 1], [5, 5], [1, 0], [0, 1], [1, 0]⟩ : Sample)]) s.segment_ids 0) ∧
    (datset_collate_fn 0 [(⟨[7, 0], 2, [1, 1], [5, 5], [1, 0], [0, 1], [1, 0]⟩ : Sample)]).e1_mask
      = [(⟨[7, 0], 2, [1, 1], [5, 5], [1, 0], [0, 1], [1, 0]⟩ : Sample)].map
          (fun s => colsKept (keepB 0 [(⟨[7, 0], 2, [1, 1], [5, 5], [1, 0], [0, 1], [1, 0]⟩ : Sample)]) s.e1_mask 0) ∧
    (datset_collate_fn 0 [(⟨[7, 0], 2, [1, 1], [5, 5], [1, 0], [0, 1], [1, 0]⟩ : Sample)]).e2_mask
      = [(⟨[7, 0], 2, [1, 1], [5, 5], [1, 0], [0, 1], [1, 0]⟩ : Sample)].map
          (fun s => colsKept (keepB 0 [(⟨[7, 0], 2, [1, 1], [5, 5], [1, 0], [0, 1], [1, 0]⟩ : Sample)]) s.e2_mask 0) ∧
    (datset_collate_fn 0 [(⟨[7, 0], 2, [1, 1], [5, 5], [1, 0], [0, 1], [1, 0]⟩ : Sample)]).input_lens
      = [(⟨[7, 0], 2, [1, 1], [5, 5], [1, 0], [0, 1], [1, 0]⟩ : Sample)].map (fun s => s.input_len) ∧
    (datset_collate_fn 0 [(⟨[7, 0], 2, [1, 1], [5, 5], [1, 0], [0, 1], [1, 0]⟩ : Sample)]).label_ids
      = [(⟨[7, 0], 2, [1, 1], [5, 5], [1, 0], [0, 1], [1, 0]⟩ : Sample)].map (fun s => s.label_ids) ∧
    ∀ j, j < 2 → (keepB 0 [(⟨[7, 0], 2, [1, 1], [5, 5], [1, 0], [0, 1], [1, 0]⟩ : Sample)] j = false ↔
      ∀ s ∈ [(⟨[7, 0], 2, [1, 1], [5, 5], [1, 0], [0, 1], [1, 0]⟩ : Sample)],
        s.input_ids.getD j 0 = 0)) :=
  ⟨by decide, by decide,
    datset_collate_correct 0 [(⟨[7, 0], 2, [1, 1], [5, 5], [1, 0], [0, 1], [1, 0]⟩ : Sample)] 2
      (by decide) (by decide) (by decide) (by decide) (by decide) (by decide)⟩

/-- Lines 199-220 data shape: the 7 parallel fields of one pickle shard
(or of the concatenated dataset): token ids, lengths, attention masks,
segment masks, the two entity masks, and the 0/1 label vectors. -/
structure DataSet where
  word_inp : List (List ℤ)
  context_len : List ℤ
  inp_mask : List (List ℤ)
  seg_mask : List (List ℤ)
  e1_mask : List (List ℤ)
  e2_mask : List (List ℤ)
  rid : List (List ℕ)
  deriving DecidableEq

/-- Line 210: fieldwise concatenation of two datasets. -/
def DataSet.append (a b : DataSet) : DataSet :=
  ⟨a.word_inp ++ b.word_inp, a.context_len ++ b.context_len,
    a.inp_mask ++ b.inp_mask, a.seg_mask ++ b.seg_mask,
    a.e1_mask ++ b.e1_mask, a.e2_mask ++ b.e2_mask, a.rid ++ b.rid⟩

/-- Line 202: the initial dataset of 7 empty field lists. -/
def emptyDataSet : DataSet := ⟨[], [], [], [], [], [], []⟩

/-- Lines 199-220: loads shards 0..9 of a split in index order; shards i =
none models a missing {split}-{i}.pkl file, which is skipped. The fields of
every present shard are concatenated; no label-length check happens here
(the 36-entry assert runs later, inside f1_eval). -/
def build_dataset (shards : ℕ → Option DataSet) : DataSet :=
  (List.range 10).foldl
    (fun acc i =>
      match shards i with
      | some s => acc.append s
      | none => acc)
    emptyDataSet

/-- Spec-side reading of C8: the fieldwise concatenation, in index order,
of the shards present among the given indices. -/
def concatShards (shards : ℕ → Option DataSet) (l : List ℕ) : DataSet :=
  ⟨((l.filterMap shards).map DataSet.word_inp).flatten,
    ((l.filterMap shards).map DataSet.context_len).flatten,
    ((l.filterMap shards).map DataSet.inp_mask).flatten,
    ((l.filterMap shards).map DataSet.seg_mask).flatten,
    ((l.filterMap shards).map DataSet.e1_mask).flatten,
    ((l.filterMap shards).map DataSet.e2_mask).flatten,
    ((l.filterMap shards).map DataSet.rid).flatten⟩

theorem DataSet.append_assoc (a b c : DataSet) :
    (a.append b).append c = a.append (b.append c) := by
  unfold DataSet.append
  simp [List.append_assoc]

theorem DataSet.append_empty_right (a : DataSet) : a.append emptyDataSet = a := by
  unfold DataSet.append emptyDataSet
  simp

theorem DataSet.empty_append (a : DataSet) : emptyDataSet.append a = a := by
  unfold DataSet.append emptyDataSet
  simp

theorem build_fold_eq (shards : ℕ → Option DataSet) :
    ∀ (l : List ℕ) (acc : DataSet),
      l.foldl
          (fun acc i =>
            match shards i with
            | some s => acc.append s
            | none => acc)
          acc
        = acc.append (concatShards shards l) := by
  intro l
  induction l with
  | nil =>
    intro acc
    rw [List.foldl_nil]
    rw [show concatShards shards [] = emptyDataSet from rfl]
    exact (DataSet.append_empty_right acc).symm
  | cons i l ih =>
    intro acc
    rw [List.foldl_cons]
    cases hs : shards i with
    | none =>
      rw [ih acc]
      congr 1
      unfold concatShards
      rw [List.filterMap_cons_none hs]
    | some s =>
      rw [ih (acc.append s)]
      rw [DataSet.append_assoc]
      congr 1
      unfold concatShards DataSet.append
      rw [List.filterMap_cons_some hs]
      simp

theorem mkLabels_ok_iff (lbls : List (List ℕ)) :
    (∃ r, mkLabels lbls = .ok r) ↔ ∀ l ∈ lbls, l.length = 36 := by
  constructor
  · rintro ⟨r, hr⟩
    intro l hl
    induction lbls generalizing r with
    | nil => cases hl
    | cons x rest ih =>
      simp only [mkLabels] at hr
      by_cases hx : x.length = 36
      · rw [if_pos hx] at hr
        rcases List.mem_cons.mp hl with hl2 | hl2
        · rw [hl2]; exact hx
        · cases hrec : mkLabels rest with
          | error e => rw [hrec] at hr; cases hr
          | ok rs => exact ih rs hrec hl2
      · rw [if_neg hx] at hr
        cases hr
  · intro h
    exact ⟨lbls.map label_of, mkLabels_ok lbls h⟩

/-- Claim C8, amended: build_dataloader loads at most the 10 shards with
indices 0..9, skipping missing files, and concatenates each of the 7
parallel fields across the present shards in index order; it performs no
label-length check itself — the 36-entry label assertion is made later, in
f1_eval, which succeeds exactly when every label vector has 36 entries. -/
theorem build_dataset_concat (shards : ℕ → Option DataSet) :
    build_dataset shards = concatShards shards (List.range 10) ∧
    ∀ lbls : List (List ℕ),
      (∃ r, mkLabels lbls = .ok r) ↔ ∀ l ∈ lbls, l.length = 36 := by
  constructor
  · unfold build_dataset
    rw [build_fold_eq shards (List.range 10) emptyDataSet]
    exact DataSet.empty_append _
  · exact mkLabels_ok_iff

/-- Claim C8 counterexample to the assertion clause: loading a shard whose
only label vector has 35 entries completes without any failure and returns
that vector unchanged; the 36-entry assert fires only later, in f1_eval
(here: mkLabels). -/
theorem build_dataset_no_assert_cex :
    build_dataset
        (fun i => if i = 0 then
          some ⟨[[1]], [1], [[1]], [[0]], [[1]], [[0]], [List.replicate 35 1]⟩
        else none)
      = ⟨[[1]], [1], [[1]], [[0]], [[1]], [[0]], [List.replicate 35 1]⟩ ∧
    (List.replicate 35 1).length ≠ 36 ∧
    mkLabels [List.replicate 35 1] = .error () := by
  refine ⟨by rfl, by decide, by rfl⟩
